import Mathlib

/-!
Shallow embedding of the ledger core of the Python-Blockchain repository
(file src/blockchain.py together with the constants of src/utilities.py).

Modelling conventions:
* Python floats are never computed with in the embedded code (they are only
  stored, compared and copied), so a float value is modelled by an opaque
  carrier `PFloat` with decidable equality; `float(n)` applied to an int `n`
  yields `PFloat.mk n`, and applied to a float it is the identity, exactly
  as the parsing code uses it.
* The SHA-256 digest of the json dump of the five block fields is library
  code, not repository code; it is modelled by an arbitrary function
  `H : Block → String` that every hash-dependent operation receives as a
  parameter.  All theorems hold for every such `H`.
* Python raising an exception is modelled by `Except`/`Option` results; a
  raised exception leaves the caller-visible state untouched, which the pure
  embedding represents by returning no successor state in the error case.
* The unbounded `while` loop of `proof_of_work` is modelled with explicit
  fuel; `none` means the loop did not finish within the given fuel.
* Python evaluates a default-argument expression once, when the `def` line
  is executed (at class-definition / module-import time).  The value the
  expression `time.time()` had at that moment is the parameter `tload`
  threaded through the definitions below; every `Block(...)` call that omits
  `timestamp` stores this one fixed value.
-/

namespace PyBlockchain

/-- Opaque model of a Python float value (floats are stored and compared,
never computed with, in the embedded code). -/
structure PFloat where
  val : Int
deriving DecidableEq, Repr

/-- A Python number: an int or a float (the `(int, float)` isinstance
union used by the source). -/
inductive PyNum where
  | pint (n : Int)
  | pfloat (f : PFloat)
deriving DecidableEq, Repr

/-- Whether a Python number is a float (isinstance(x, float)). -/
def PyNum.isFloat : PyNum → Bool
  | .pint _ => false
  | .pfloat _ => true

/-- The builtin `float(x)` on a number: identity on floats, conversion on
ints. -/
def pyFloat : PyNum → PFloat
  | .pint n => ⟨n⟩
  | .pfloat f => f

/-- The exceptions the embedded code can raise. -/
inductive PyErr where
  | typeError (msg : String)
  | valueError (msg : String)
  | indexError
deriving DecidableEq, Repr

/-- The specification groups the TypeError/ValueError raised by the
constructors under the single name ValidationError. -/
def PyErr.isValidationError : PyErr → Bool
  | .typeError _ => true
  | .valueError _ => true
  | .indexError => false

/-- The canonical field projection `Transaction.data` (a dict with keys
sender_id, receiver_id, timestamp, amount). -/
structure TransactionData where
  sender_id : String
  receiver_id : String
  timestamp : PFloat
  amount : PyNum
deriving DecidableEq, Repr

/-- A validated Transaction object (src/blockchain.py, class Transaction). -/
structure Transaction where
  sender_id : String
  receiver_id : String
  timestamp : PFloat
  amount : PyNum
deriving DecidableEq, Repr

/-- The `data` property of a Transaction. -/
def Transaction.data (t : Transaction) : TransactionData :=
  { sender_id := t.sender_id
    receiver_id := t.receiver_id
    timestamp := t.timestamp
    amount := t.amount }

/-- A Block object (src/blockchain.py, class Block): the five attributes
set by the constructor, in source order. -/
structure Block where
  index : Int
  transactions : List TransactionData
  timestamp : PyNum
  previous_hash : String
  nonce : Int
deriving DecidableEq, Repr

/-- A dynamically typed Python value, restricted to the shapes the embedded
entry points inspect with isinstance. -/
inductive PyVal where
  | vstr (s : String)
  | vint (n : Int)
  | vfloat (f : PFloat)
  | vblock (b : Block)
  | vnone

/-- isinstance(v, str). -/
def PyVal.isStr : PyVal → Bool
  | .vstr _ => true
  | _ => false

/-- isinstance(v, Block). -/
def PyVal.isBlock : PyVal → Bool
  | .vblock _ => true
  | _ => false

/-- isinstance(v, float). -/
def PyVal.isFloatVal : PyVal → Bool
  | .vfloat _ => true
  | _ => false

/-- isinstance(v, (int, float)). -/
def PyVal.isNumeric : PyVal → Bool
  | .vint _ => true
  | .vfloat _ => true
  | _ => false

/-- Whether v is a positive Python int. -/
def PyVal.isPositiveInt : PyVal → Bool
  | .vint n => decide (0 < n)
  | _ => false

/-- src/utilities.py line 5. -/
def DEFAULT_DIFFICULTY : Int := 3

/-- src/utilities.py line 6. -/
def MINIMUM_NUMBER_OF_TRANSACTIONS_PER_BLOCK : Nat := 3

/-- Transaction.__init__: the four isinstance checks in source order, then
the four attribute assignments. -/
def transaction_init (sender_id receiver_id timestamp amount : PyVal) :
    Except PyErr Transaction :=
  match sender_id with
  | .vstr s =>
    match receiver_id with
    | .vstr r =>
      match timestamp with
      | .vfloat t =>
        match amount with
        | .vint n => .ok { sender_id := s, receiver_id := r, timestamp := t, amount := .pint n }
        | .vfloat f => .ok { sender_id := s, receiver_id := r, timestamp := t, amount := .pfloat f }
        | _ => .error (.typeError "ERROR: param amount must be of type int or float")
      | _ => .error (.typeError "ERROR: param timestamp must be of type float")
    | _ => .error (.typeError "ERROR: param receiver_id must be of type str")
  | _ => .error (.typeError "ERROR: param sender_id must be of type str")

/-- Block.__init__ called without a timestamp argument.  The default
expression `time.time()` in the def line was evaluated once, at
class-definition time; its value is `tload`, and every such call stores
that same value, whatever the clock reads when the call happens.  The
nonce default is 0.  With arguments of these Lean types every isinstance
check of the constructor passes. -/
def block_init_no_timestamp (tload : PFloat) (index : Int)
    (transactions : List TransactionData) (previous_hash : String) : Block :=
  { index := index
    transactions := transactions
    timestamp := .pfloat tload
    previous_hash := previous_hash
    nonce := 0 }

/-- The Blockchain state: the three attributes set by Blockchain.__init__. -/
structure Blockchain where
  difficulty : Int
  unconfirmed_transactions : List TransactionData
  chain : List Block
deriving DecidableEq, Repr

/-- Blockchain._create_genesis_block: Block(index=0, transactions=[],
previous_hash="0000") with default timestamp and nonce. -/
def create_genesis_block (tload : PFloat) : Block :=
  block_init_no_timestamp tload 0 [] "0000"

/-- The state built by Blockchain.__init__ once its two checks have
passed: the difficulty, an empty pool, and a chain holding exactly the
genesis block. -/
def blockchain_mk (tload : PFloat) (difficulty : Int) : Blockchain :=
  { difficulty := difficulty
    unconfirmed_transactions := []
    chain := [create_genesis_block tload] }

/-- Blockchain.__init__: isinstance int check, positivity check, then the
attribute assignments and the genesis block. -/
def blockchain_init (tload : PFloat) (difficulty : PyVal) : Except PyErr Blockchain :=
  match difficulty with
  | .vint d =>
    if d ≤ 0 then .error (.valueError "ERROR: param difficulty must be greater than 0")
    else .ok (blockchain_mk tload d)
  | _ => .error (.typeError "ERROR: param difficulty must be of type int")

/-- The string "0" * difficulty (Python repetition: empty for a
non-positive count). -/
def zeros (difficulty : Int) : String :=
  String.mk (List.replicate difficulty.toNat '0')

/-- Python str.startswith, as a prefix test on the character sequences of
the two strings. -/
def py_startswith (s target : String) : Bool :=
  target.data.isPrefixOf s.data

/-- Blockchain.last_block: self.chain[-1]; `none` models the IndexError
raised on an empty chain. -/
def last_block (bc : Blockchain) : Option Block :=
  bc.chain.getLast?

/-- Blockchain.is_valid_proof after its isinstance checks:
proof.startswith("0" * difficulty) and proof == block.compute_hash(). -/
def is_valid_proof (H : Block → String) (bc : Blockchain) (block : Block)
    (proof : String) : Bool :=
  py_startswith proof (zeros bc.difficulty) && proof == H block

/-- Blockchain.add_block after its isinstance checks: compute the hash of
the last block (IndexError, modelled `none`, on an empty chain), append
the block and return True when both gate conditions hold, otherwise
return False and leave the chain unchanged. -/
def add_block (H : Block → String) (bc : Blockchain) (block : Block)
    (proof : String) : Option (Bool × Blockchain) :=
  match last_block bc with
  | none => none
  | some last =>
    if H last == block.previous_hash && is_valid_proof H bc block proof then
      some (true, { bc with chain := bc.chain ++ [block] })
    else
      some (false, bc)

/-- Blockchain.proof_of_work with explicit fuel for the unbounded while
loop: check the hash of the block as it stands, and while it lacks the
difficulty-long zero prefix increment the nonce and recompute.  Returns
the final block (the loop mutates the nonce of the caller-visible block)
together with the winning hash; `none` means the loop was still running
when the fuel ran out. -/
def proof_of_work (H : Block → String) (bc : Blockchain) (fuel : Nat)
    (block : Block) : Option (Block × String) :=
  match fuel with
  | 0 => none
  | f + 1 =>
    let computed_hash := H block
    if py_startswith computed_hash (zeros bc.difficulty) then
      some (block, computed_hash)
    else
      proof_of_work H bc f { block with nonce := block.nonce + 1 }

/-- Blockchain.add_new_transaction: the four isinstance checks in source
order, then Transaction(...) (whose own checks re-pass), then the append
of transaction_details.data to the pool. -/
def add_new_transaction (bc : Blockchain)
    (sender_id receiver_id timestamp amount : PyVal) :
    Except PyErr (Transaction × Blockchain) :=
  match sender_id with
  | .vstr _ =>
    match receiver_id with
    | .vstr _ =>
      match timestamp with
      | .vfloat _ =>
        match amount with
        | .vint _ | .vfloat _ =>
          match transaction_init sender_id receiver_id timestamp amount with
          | .error e => .error e
          | .ok transaction_details =>
            .ok (transaction_details,
              { bc with unconfirmed_transactions :=
                  bc.unconfirmed_transactions ++ [transaction_details.data] })
        | _ => .error (.typeError "ERROR: param amount must be an int or float")
      | _ => .error (.typeError "ERROR: param timestamp must be a float")
    | _ => .error (.typeError "ERROR: param receiver_id must be a str")
  | _ => .error (.typeError "ERROR: param sender_id must be a str")

/-- Blockchain.mine: gate on the pool size; build the candidate block from
the whole pool with index last.index + 1 and previous_hash the hash of the
last block (timestamp left to the Block default, nonce 0); run
proof_of_work; call add_block ignoring its boolean result; rebind the pool
to the empty list; return True. -/
def mine (H : Block → String) (tload : PFloat) (fuel : Nat)
    (bc : Blockchain) : Option (Bool × Blockchain) :=
  if bc.unconfirmed_transactions.length < MINIMUM_NUMBER_OF_TRANSACTIONS_PER_BLOCK then
    some (false, bc)
  else
    match last_block bc with
    | none => none
    | some last =>
      match proof_of_work H bc fuel
          (block_init_no_timestamp tload (last.index + 1)
            bc.unconfirmed_transactions (H last)) with
      | none => none
      | some (mined_block, proof) =>
        match add_block H bc mined_block proof with
        | none => none
        | some (_added, bc2) =>
          some (true, { bc2 with unconfirmed_transactions := [] })

/-- Blockchain.__dict__: the snapshot structure
difficulty / unconfirmed_transactions / length / chain, each chain entry
being the attribute dict of the block (its five fields). -/
structure SnapshotData where
  difficulty : Int
  unconfirmed_transactions : List TransactionData
  length : Nat
  chain : List Block
deriving DecidableEq, Repr

/-- Serialization of a Blockchain (its __dict__ method). -/
def blockchain_dict (bc : Blockchain) : SnapshotData :=
  { difficulty := bc.difficulty
    unconfirmed_transactions := bc.unconfirmed_transactions
    length := bc.chain.length
    chain := bc.chain }

/-- One iteration of the parsing loop of _parse_blockchain_from_txt_file:
Block(index=int(r.index), transactions=r.transactions,
timestamp=float(r.timestamp), previous_hash=r.previous_hash,
nonce=int(r.nonce)); int() is the identity on the already-integral
fields, float() converts the stored number. -/
def parse_block_record (r : Block) : Block :=
  { index := r.index
    transactions := r.transactions
    timestamp := .pfloat (pyFloat r.timestamp)
    previous_hash := r.previous_hash
    nonce := r.nonce }

/-- _parse_blockchain_from_txt_file on an already json-decoded snapshot:
construct Blockchain() with the default difficulty, pop the auto-created
genesis block, overwrite difficulty and unconfirmed_transactions from the
snapshot, then append every chain record as a re-constructed Block. -/
def parse_blockchain_from_txt_file (tload : PFloat) (cached : SnapshotData) :
    Blockchain :=
  let parsed0 := blockchain_mk tload DEFAULT_DIFFICULTY
  let parsed1 := { parsed0 with chain := parsed0.chain.drop 1 }
  let parsed2 := { parsed1 with
    difficulty := cached.difficulty
    unconfirmed_transactions := cached.unconfirmed_transactions }
  { parsed2 with chain := parsed2.chain ++ cached.chain.map parse_block_record }

/-- Blockchain.add_block including its two isinstance checks, for
dynamically typed arguments. -/
def add_block_checked (H : Block → String) (bc : Blockchain)
    (block proof : PyVal) : Except PyErr (Bool × Blockchain) :=
  match block with
  | .vblock b =>
    match proof with
    | .vstr p =>
      match add_block H bc b p with
      | none => .error .indexError
      | some r => .ok r
    | _ => .error (.typeError "ERROR: param proof must be of type str")
  | _ => .error (.typeError "ERROR: param block must be of type Block")

/-- Blockchain.is_valid_proof including its two isinstance checks, for
dynamically typed arguments. -/
def is_valid_proof_checked (H : Block → String) (bc : Blockchain)
    (block proof : PyVal) : Except PyErr Bool :=
  match block with
  | .vblock b =>
    match proof with
    | .vstr p => .ok (is_valid_proof H bc b p)
    | _ => .error (.typeError "ERROR: param proof must be of type str")
  | _ => .error (.typeError "ERROR: param block must be of type Block")

/-! Concrete fixtures used by the witness theorems below.  The hash
parameter `test_hash` makes the proof-of-work search take one step from a
fresh block: an even nonce hashes to a string with no zero prefix, an odd
nonce to one with three leading zeros. -/

/-- A concrete class-definition-time clock value. -/
def t0 : PFloat := ⟨0⟩

/-- A concrete hash function for witnesses. -/
def test_hash : Block → String :=
  fun b => if b.nonce % 2 == 0 then "bad" else "000abc"

/-- A concrete transaction projection. -/
def txA : TransactionData := ⟨"a1", "b1", ⟨1⟩, .pint 1⟩

/-- A concrete transaction projection. -/
def txB : TransactionData := ⟨"a2", "b2", ⟨2⟩, .pfloat ⟨2⟩⟩

/-- A concrete transaction projection. -/
def txC : TransactionData := ⟨"a3", "b3", ⟨3⟩, .pint 3⟩

/-- The genesis block of the witness ledgers. -/
def genW : Block := create_genesis_block t0

/-- A witness ledger with three pooled transactions. -/
def bcW : Blockchain := ⟨3, [txA, txB, txC], [genW]⟩

/-- A witness ledger with two pooled transactions. -/
def bcSmall : Blockchain := ⟨3, [txA, txB], [genW]⟩

/-- The block mine commits on bcW under test_hash. -/
def minedW : Block := ⟨1, [txA, txB, txC], .pfloat t0, "bad", 1⟩

/-- The ledger mine produces from bcW under test_hash. -/
def bcWAfter : Blockchain := ⟨3, [], [genW, minedW]⟩

/-- The block proof_of_work produces from genW under test_hash. -/
def powW : Block := ⟨0, [], .pfloat t0, "0000", 1⟩

/-- A witness ledger for the round-trip claim: two committed blocks, one
pooled transaction. -/
def bcRT : Blockchain := ⟨2, [txA], [genW, minedW]⟩

/-- A parseable snapshot whose chain list is empty. -/
def empty_chain_snapshot : SnapshotData :=
  { difficulty := 2, unconfirmed_transactions := [], length := 0, chain := [] }

/-! Helper lemmas shared by the claim theorems. -/

/-- On a ledger with a last block, add_block always returns a pair: true
with the block appended when both gate conditions hold, false with the
state unchanged otherwise. -/
theorem add_block_cases (H : Block → String) (bc : Blockchain)
    (last block : Block) (proof : String) (hlast : last_block bc = some last) :
    ((H last == block.previous_hash && is_valid_proof H bc block proof) = true ∧
      add_block H bc block proof = some (true, { bc with chain := bc.chain ++ [block] })) ∨
    ((H last == block.previous_hash && is_valid_proof H bc block proof) = false ∧
      add_block H bc block proof = some (false, bc)) := by
  by_cases h : (H last == block.previous_hash && is_valid_proof H bc block proof) = true
  · left
    exact ⟨h, by simp [add_block, hlast, h]⟩
  · right
    refine ⟨by simpa using h, ?_⟩
    simp [add_block, hlast, h]

/-- The proof-of-work loop, when it finishes, returns the input block with
a possibly larger nonce and all other fields untouched, together with a
hash of that final block that carries the difficulty-long zero prefix. -/
theorem proof_of_work_sound (H : Block → String) (bc : Blockchain) :
    ∀ (fuel : Nat) (b b2 : Block) (hash : String),
      proof_of_work H bc fuel b = some (b2, hash) →
      py_startswith hash (zeros bc.difficulty) = true ∧ hash = H b2 ∧
      b2.index = b.index ∧ b2.transactions = b.transactions ∧
      b2.timestamp = b.timestamp ∧ b2.previous_hash = b.previous_hash ∧
      b.nonce ≤ b2.nonce := by
  intro fuel
  induction fuel with
  | zero =>
    intro b b2 hash hE
    simp [proof_of_work] at hE
  | succ f ih =>
    intro b b2 hash hE
    rw [proof_of_work] at hE
    by_cases hS : py_startswith (H b) (zeros bc.difficulty) = true
    · rw [if_pos hS] at hE
      obtain ⟨hb, hh⟩ := Prod.mk.injEq .. ▸ Option.some.injEq .. ▸ hE
      subst hb
      subst hh
      exact ⟨hS, rfl, rfl, rfl, rfl, rfl, le_refl _⟩
    · rw [if_neg hS] at hE
      obtain ⟨h1, h2, h3, h4, h5, h6, h7⟩ := ih _ _ _ hE
      refine ⟨h1, h2, h3, h4, h5, h6, ?_⟩
      simp only at h7
      omega

/-- parse_block_record is the identity on a block whose stored timestamp
is a Python float. -/
theorem parse_block_record_id (b : Block) (hb : b.timestamp.isFloat = true) :
    parse_block_record b = b := by
  obtain ⟨i, txs, ts, ph, n⟩ := b
  cases ts with
  | pint m => simp [PyNum.isFloat] at hb
  | pfloat f => simp [parse_block_record, pyFloat]

/-- Mapping parse_block_record over a chain of float-stamped blocks is the
identity. -/
theorem map_parse_block_record_id :
    ∀ (l : List Block), (∀ b ∈ l, b.timestamp.isFloat = true) →
      l.map parse_block_record = l := by
  intro l h
  induction l with
  | nil => rfl
  | cons b rest ih =>
    simp only [List.map_cons]
    rw [parse_block_record_id b (h b (by simp)), ih (fun x hx => h x (by simp [hx]))]

/-! The claim theorems. -/

/-- Claim C1: on any ledger whose pool holds at least
MINIMUM_NUMBER_OF_TRANSACTIONS_PER_BLOCK transactions, a completed run of
mine returns true and leaves the unconfirmed pool empty.  The proof walks
every branch of the add_block result without ever inspecting the boolean
it returned, so the conclusion holds regardless of whether the internal
commit succeeded or failed. -/
theorem mine_unconditional_clear (H : Block → String) (tload : PFloat)
    (fuel : Nat) (bc bc2 : Blockchain) (r : Bool)
    (hGate : MINIMUM_NUMBER_OF_TRANSACTIONS_PER_BLOCK ≤ bc.unconfirmed_transactions.length)
    (hRun : mine H tload fuel bc = some (r, bc2)) :
    r = true ∧ bc2.unconfirmed_transactions = [] := by
  have hnlt : ¬ (bc.unconfirmed_transactions.length <
      MINIMUM_NUMBER_OF_TRANSACTIONS_PER_BLOCK) := by omega
  unfold mine at hRun
  rw [if_neg hnlt] at hRun
  split at hRun
  · exact absurd hRun (by simp)
  · split at hRun
    · exact absurd hRun (by simp)
    · split at hRun
      · exact absurd hRun (by simp)
      · obtain ⟨hr, hbc⟩ := Prod.mk.injEq .. ▸ Option.some.injEq .. ▸ hRun
        subst hbc
        exact ⟨hr.symm, rfl⟩

/-- Claim C1 witness: a concrete three-transaction ledger on which mine
completes, returns true and empties the pool. -/
theorem mine_unconditional_clear_witness :
    (MINIMUM_NUMBER_OF_TRANSACTIONS_PER_BLOCK ≤ bcW.unconfirmed_transactions.length ∧
      mine test_hash t0 2 bcW = some (true, bcWAfter)) ∧
    (true = true ∧ bcWAfter.unconfirmed_transactions = []) :=
  ⟨⟨by decide, by decide⟩,
    mine_unconditional_clear test_hash t0 2 bcW bcWAfter true (by decide) (by decide)⟩

/-- Claim C2: on any ledger with a last block, add_block returns a pair;
it returns true exactly when the previous-hash linkage and the proof check
both hold, in which case the chain grows by exactly the given block at the
end; on false the whole state is unchanged. -/
theorem add_block_spec (H : Block → String) (bc : Blockchain)
    (last block : Block) (proof : String) (hlast : last_block bc = some last) :
    ∃ ok bc2, add_block H bc block proof = some (ok, bc2) ∧
      (ok = true ↔ (block.previous_hash = H last ∧
        is_valid_proof H bc block proof = true)) ∧
      (ok = true → bc2.chain = bc.chain ++ [block] ∧
        bc2.chain.length = bc.chain.length + 1 ∧
        bc2.unconfirmed_transactions = bc.unconfirmed_transactions ∧
        bc2.difficulty = bc.difficulty) ∧
      (ok = false → bc2 = bc) := by
  rcases add_block_cases H bc last block proof hlast with ⟨hc, hAB⟩ | ⟨hc, hAB⟩
  · rw [Bool.and_eq_true, beq_iff_eq] at hc
    refine ⟨true, _, hAB, ?_, ?_, ?_⟩
    · simp [hc.1.symm, hc.2]
    · intro _
      exact ⟨rfl, by simp, rfl, rfl⟩
    · intro h
      exact absurd h (by simp)
  · refine ⟨false, bc, hAB, ?_, ?_, fun _ => rfl⟩
    · constructor
      · intro h
        exact absurd h (by simp)
      · intro ⟨h1, h2⟩
        have hT : (H last == block.previous_hash &&
            is_valid_proof H bc block proof) = true := by
          rw [Bool.and_eq_true, beq_iff_eq]
          exact ⟨h1.symm, h2⟩
        rw [hT] at hc
        exact absurd hc (by simp)
    · intro h
      exact absurd h (by simp)

/-- Claim C2 witness: on the concrete ledger bcW the concrete block minedW
with its valid proof is accepted and appended. -/
theorem add_block_spec_witness :
    last_block bcW = some genW ∧
    (∃ ok bc2, add_block test_hash bcW minedW "000abc" = some (ok, bc2) ∧
      (ok = true ↔ (minedW.previous_hash = test_hash genW ∧
        is_valid_proof test_hash bcW minedW "000abc" = true)) ∧
      (ok = true → bc2.chain = bcW.chain ++ [minedW] ∧
        bc2.chain.length = bcW.chain.length + 1 ∧
        bc2.unconfirmed_transactions = bcW.unconfirmed_transactions ∧
        bc2.difficulty = bcW.difficulty) ∧
      (ok = false → bc2 = bcW)) :=
  ⟨by decide, add_block_spec test_hash bcW genW minedW "000abc" (by decide)⟩

/-- Claim C3: below the pool-size threshold mine returns false with the
whole state unchanged; at or above it, a completed run returns true,
empties the pool, and appends exactly one block whose index is one more
than the last block and whose transactions are the whole pool as it stood
at the call. -/
theorem mine_spec (H : Block → String) (tload : PFloat) (bc : Blockchain)
    (last : Block) (hlast : last_block bc = some last) :
    (bc.unconfirmed_transactions.length < MINIMUM_NUMBER_OF_TRANSACTIONS_PER_BLOCK →
      ∀ fuel, mine H tload fuel bc = some (false, bc)) ∧
    (MINIMUM_NUMBER_OF_TRANSACTIONS_PER_BLOCK ≤ bc.unconfirmed_transactions.length →
      ∀ fuel r bc2, mine H tload fuel bc = some (r, bc2) →
        r = true ∧ bc2.unconfirmed_transactions = [] ∧
        ∃ b : Block, bc2.chain = bc.chain ++ [b] ∧
          bc2.chain.length = bc.chain.length + 1 ∧
          b.index = last.index + 1 ∧
          b.transactions = bc.unconfirmed_transactions) := by
  constructor
  · intro hlt fuel
    unfold mine
    rw [if_pos hlt]
  · intro hge fuel r bc2 hRun
    have hnlt : ¬ (bc.unconfirmed_transactions.length <
        MINIMUM_NUMBER_OF_TRANSACTIONS_PER_BLOCK) := by omega
    unfold mine at hRun
    rw [if_neg hnlt] at hRun
    split at hRun
    · next heq => rw [hlast] at heq; exact absurd heq (by simp)
    · next l heq =>
      rw [hlast, Option.some.injEq] at heq
      subst heq
      split at hRun
      · exact absurd hRun (by simp)
      · next mined proof hpow =>
        obtain ⟨h1, h2, h3, h4, h5, h6, h7⟩ :=
          proof_of_work_sound H bc fuel _ mined proof hpow
        have hph : mined.previous_hash = H last := by
          rw [h6]
          simp [block_init_no_timestamp]
        have hcond : (H last == mined.previous_hash &&
            is_valid_proof H bc mined proof) = true := by
          rw [Bool.and_eq_true, beq_iff_eq]
          exact ⟨hph.symm, by simp [is_valid_proof, ← h2, h1]⟩
        rcases add_block_cases H bc last mined proof hlast with ⟨_, hAB⟩ | ⟨hc, _⟩
        · rw [hAB] at hRun
          obtain ⟨hr, hbc⟩ := Prod.mk.injEq .. ▸ Option.some.injEq .. ▸ hRun
          subst hbc
          refine ⟨hr.symm, rfl, mined, rfl, by simp, ?_, h4⟩
          rw [h3]
          rfl
        · rw [hcond] at hc
          exact absurd hc (by simp)

/-- Claim C3 witness: a concrete two-transaction ledger on which mine
refuses and leaves the state unchanged. -/
theorem mine_spec_witness :
    last_block bcSmall = some genW ∧
    bcSmall.unconfirmed_transactions.length < MINIMUM_NUMBER_OF_TRANSACTIONS_PER_BLOCK ∧
    mine test_hash t0 1 bcSmall = some (false, bcSmall) :=
  ⟨by decide, by decide,
    (mine_spec test_hash t0 bcSmall genW (by decide)).1 (by decide) 1⟩

/-- Claim C4: when the proof-of-work search finishes, the returned hash
has the difficulty-long leading-zero prefix, equals the hash of the block
over its final field values, and is accepted by is_valid_proof; the search
only ever increased the nonce and touched no other field. -/
theorem proof_of_work_spec (H : Block → String) (bc : Blockchain)
    (fuel : Nat) (block mined : Block) (hash : String)
    (hRun : proof_of_work H bc fuel block = some (mined, hash)) :
    py_startswith hash (zeros bc.difficulty) = true ∧
    hash = H mined ∧
    is_valid_proof H bc mined hash = true ∧
    block.nonce ≤ mined.nonce ∧
    mined.index = block.index ∧ mined.transactions = block.transactions ∧
    mined.timestamp = block.timestamp ∧ mined.previous_hash = block.previous_hash := by
  obtain ⟨h1, h2, h3, h4, h5, h6, h7⟩ :=
    proof_of_work_sound H bc fuel block mined hash hRun
  exact ⟨h1, h2, by simp [is_valid_proof, ← h2, h1], h7, h3, h4, h5, h6⟩

/-- Claim C4 witness: the search on the concrete genesis block finds the
nonce after one increment. -/
theorem proof_of_work_spec_witness :
    proof_of_work test_hash bcW 3 genW = some (powW, "000abc") ∧
    (py_startswith "000abc" (zeros bcW.difficulty) = true ∧
      "000abc" = test_hash powW ∧
      is_valid_proof test_hash bcW powW "000abc" = true ∧
      genW.nonce ≤ powW.nonce ∧
      powW.index = genW.index ∧ powW.transactions = genW.transactions ∧
      powW.timestamp = genW.timestamp ∧ powW.previous_hash = genW.previous_hash) :=
  ⟨by decide, proof_of_work_spec test_hash bcW 3 genW powW "000abc" (by decide)⟩

/-- Claim C5: deserializing the serialized snapshot of any ledger whose
committed blocks carry float timestamps (as every block built by this
program does) reproduces the difficulty, the pending pool and the whole
chain, block by block and field by field. -/
theorem snapshot_roundtrip (tload : PFloat) (bc : Blockchain)
    (hts : ∀ b ∈ bc.chain, b.timestamp.isFloat = true) :
    (parse_blockchain_from_txt_file tload (blockchain_dict bc)).difficulty = bc.difficulty ∧
    (parse_blockchain_from_txt_file tload (blockchain_dict bc)).unconfirmed_transactions =
      bc.unconfirmed_transactions ∧
    (parse_blockchain_from_txt_file tload (blockchain_dict bc)).chain = bc.chain := by
  refine ⟨rfl, rfl, ?_⟩
  show List.drop 1 [create_genesis_block tload] ++ bc.chain.map parse_block_record = bc.chain
  rw [map_parse_block_record_id bc.chain hts]
  rfl

/-- Claim C5 witness: round trip of a concrete ledger with two committed
blocks and one pooled transaction. -/
theorem snapshot_roundtrip_witness :
    (∀ b ∈ bcRT.chain, b.timestamp.isFloat = true) ∧
    ((parse_blockchain_from_txt_file t0 (blockchain_dict bcRT)).difficulty = bcRT.difficulty ∧
      (parse_blockchain_from_txt_file t0 (blockchain_dict bcRT)).unconfirmed_transactions =
        bcRT.unconfirmed_transactions ∧
      (parse_blockchain_from_txt_file t0 (blockchain_dict bcRT)).chain = bcRT.chain) :=
  ⟨by decide, snapshot_roundtrip t0 bcRT (by decide)⟩

/-- Claim C6: add_new_transaction with a non-string sender_id raises the
TypeError of the sender check (a ValidationError in the terms of the
specification), so no state change occurs; with correctly typed arguments
it appends exactly one projection to the pool, which equals the data of
the returned Transaction, and touches nothing else. -/
theorem add_new_transaction_spec (bc : Blockchain) :
    (∀ sender_id receiver_id timestamp amount : PyVal, sender_id.isStr = false →
      add_new_transaction bc sender_id receiver_id timestamp amount =
        .error (.typeError "ERROR: param sender_id must be a str") ∧
      (PyErr.typeError "ERROR: param sender_id must be a str").isValidationError = true) ∧
    (∀ sender_id receiver_id timestamp amount : PyVal,
      sender_id.isStr = true → receiver_id.isStr = true →
      timestamp.isFloatVal = true → amount.isNumeric = true →
      ∃ t bc2, add_new_transaction bc sender_id receiver_id timestamp amount = .ok (t, bc2) ∧
        bc2.unconfirmed_transactions = bc.unconfirmed_transactions ++ [t.data] ∧
        bc2.chain = bc.chain ∧ bc2.difficulty = bc.difficulty) := by
  constructor
  · intro sid rid ts amt h
    refine ⟨?_, rfl⟩
    cases sid with
    | vstr s => simp [PyVal.isStr] at h
    | vint n => rfl
    | vfloat f => rfl
    | vblock b => rfl
    | vnone => rfl
  · intro sid rid ts amt h1 h2 h3 h4
    cases sid with
    | vstr s =>
      cases rid with
      | vstr r =>
        cases ts with
        | vfloat t =>
          cases amt with
          | vint n => exact ⟨_, _, rfl, rfl, rfl, rfl⟩
          | vfloat f => exact ⟨_, _, rfl, rfl, rfl, rfl⟩
          | vstr s2 => simp [PyVal.isNumeric] at h4
          | vblock b => simp [PyVal.isNumeric] at h4
          | vnone => simp [PyVal.isNumeric] at h4
        | vstr s2 => simp [PyVal.isFloatVal] at h3
        | vint n => simp [PyVal.isFloatVal] at h3
        | vblock b => simp [PyVal.isFloatVal] at h3
        | vnone => simp [PyVal.isFloatVal] at h3
      | vint n => simp [PyVal.isStr] at h2
      | vfloat f => simp [PyVal.isStr] at h2
      | vblock b => simp [PyVal.isStr] at h2
      | vnone => simp [PyVal.isStr] at h2
    | vint n => simp [PyVal.isStr] at h1
    | vfloat f => simp [PyVal.isStr] at h1
    | vblock b => simp [PyVal.isStr] at h1
    | vnone => simp [PyVal.isStr] at h1

/-- Claim C6 witness: an int sender_id is rejected on the concrete ledger
bcSmall with the pool untouched. -/
theorem add_new_transaction_spec_witness :
    (PyVal.vint 7).isStr = false ∧
    (add_new_transaction bcSmall (.vint 7) (.vstr "r") (.vfloat ⟨5⟩) (.vint 4) =
        .error (.typeError "ERROR: param sender_id must be a str") ∧
      (PyErr.typeError "ERROR: param sender_id must be a str").isValidationError = true) :=
  ⟨by decide,
    (add_new_transaction_spec bcSmall).1 (.vint 7) (.vstr "r") (.vfloat ⟨5⟩) (.vint 4) (by decide)⟩

/-- Claim C7: Blockchain construction rejects every difficulty that is not
a positive int with a ValidationError; for a positive int it yields an
empty pool and a chain holding exactly the genesis block, whose index is
0, previous_hash "0000" and transaction list empty. -/
theorem blockchain_init_spec (tload : PFloat) :
    (∀ v : PyVal, v.isPositiveInt = false →
      ∃ e, blockchain_init tload v = .error e ∧ e.isValidationError = true) ∧
    (∀ d : Int, 0 < d →
      blockchain_init tload (.vint d) = .ok
        { difficulty := d, unconfirmed_transactions := [],
          chain := [create_genesis_block tload] } ∧
      (create_genesis_block tload).index = 0 ∧
      (create_genesis_block tload).previous_hash = "0000" ∧
      (create_genesis_block tload).transactions = []) := by
  constructor
  · intro v hv
    cases v with
    | vint n =>
      have hn : n ≤ 0 := by
        simp [PyVal.isPositiveInt] at hv
        omega
      exact ⟨.valueError "ERROR: param difficulty must be greater than 0",
        by simp [blockchain_init, hn], rfl⟩
    | vstr s => exact ⟨.typeError "ERROR: param difficulty must be of type int", rfl, rfl⟩
    | vfloat f => exact ⟨.typeError "ERROR: param difficulty must be of type int", rfl, rfl⟩
    | vblock b => exact ⟨.typeError "ERROR: param difficulty must be of type int", rfl, rfl⟩
    | vnone => exact ⟨.typeError "ERROR: param difficulty must be of type int", rfl, rfl⟩
  · intro d hd
    have hn : ¬ d ≤ 0 := by omega
    exact ⟨by simp [blockchain_init, blockchain_mk, hn], rfl, rfl, rfl⟩

/-- Claim C7 witness: difficulty 0 is rejected, difficulty 2 builds the
genesis-only ledger. -/
theorem blockchain_init_spec_witness :
    (PyVal.vint 0).isPositiveInt = false ∧
    (∃ e, blockchain_init t0 (.vint 0) = .error e ∧ e.isValidationError = true) :=
  ⟨by decide, (blockchain_init_spec t0).1 (.vint 0) (by decide)⟩

/-- Claim C8 (refutation of the stated behavior): Python evaluated the
default expression time.time() of the Block constructor once, when the
class body was executed, so every Block built without an explicit
timestamp stores that one module-load value; two such blocks built at
different moments therefore carry equal timestamps, not each their own
construction time. -/
theorem block_default_timestamp_constant (tload : PFloat) (i1 i2 : Int)
    (txs1 txs2 : List TransactionData) (ph1 ph2 : String) :
    (block_init_no_timestamp tload i1 txs1 ph1).timestamp = .pfloat tload ∧
    (block_init_no_timestamp tload i1 txs1 ph1).timestamp =
      (block_init_no_timestamp tload i2 txs2 ph2).timestamp :=
  ⟨rfl, rfl⟩

/-- Claim C9: the snapshot parser accepts a blob whose chain list is
empty and returns a ledger with an empty chain, on which last_block has
nothing to return (the IndexError case, modelled none); the genesis
guarantee is not re-established on load. -/
theorem parse_empty_chain_snapshot (tload : PFloat) :
    (parse_blockchain_from_txt_file tload empty_chain_snapshot).chain = [] ∧
    last_block (parse_blockchain_from_txt_file tload empty_chain_snapshot) = none :=
  ⟨rfl, rfl⟩

/-- Claim C10: add_block and is_valid_proof raise a TypeError whenever the
block argument is not a Block or the proof is not a string (so no boolean
is returned and, the exception propagating before any mutation, the chain
is untouched); conversely a boolean outcome is only ever produced for
well-typed arguments. -/
theorem add_block_type_checks (H : Block → String) (bc : Blockchain) :
    (∀ block proof : PyVal, block.isBlock = false ∨ proof.isStr = false →
      (∃ msg, add_block_checked H bc block proof = .error (.typeError msg)) ∧
      (∃ msg, is_valid_proof_checked H bc block proof = .error (.typeError msg))) ∧
    (∀ block proof : PyVal, ∀ r, add_block_checked H bc block proof = .ok r →
      block.isBlock = true ∧ proof.isStr = true) ∧
    (∀ block proof : PyVal, ∀ r, is_valid_proof_checked H bc block proof = .ok r →
      block.isBlock = true ∧ proof.isStr = true) := by
  refine ⟨?_, ?_, ?_⟩
  · intro block proof h
    cases block with
    | vblock b =>
      cases proof with
      | vstr p => simp [PyVal.isBlock, PyVal.isStr] at h
      | vint n => exact ⟨⟨_, rfl⟩, ⟨_, rfl⟩⟩
      | vfloat f => exact ⟨⟨_, rfl⟩, ⟨_, rfl⟩⟩
      | vblock b2 => exact ⟨⟨_, rfl⟩, ⟨_, rfl⟩⟩
      | vnone => exact ⟨⟨_, rfl⟩, ⟨_, rfl⟩⟩
    | vstr s => exact ⟨⟨_, rfl⟩, ⟨_, rfl⟩⟩
    | vint n => exact ⟨⟨_, rfl⟩, ⟨_, rfl⟩⟩
    | vfloat f => exact ⟨⟨_, rfl⟩, ⟨_, rfl⟩⟩
    | vnone => exact ⟨⟨_, rfl⟩, ⟨_, rfl⟩⟩
  · intro block proof r hE
    cases block with
    | vblock b =>
      cases proof with
      | vstr p => exact ⟨rfl, rfl⟩
      | vint n => exact Except.noConfusion hE
      | vfloat f => exact Except.noConfusion hE
      | vblock b2 => exact Except.noConfusion hE
      | vnone => exact Except.noConfusion hE
    | vstr s => exact Except.noConfusion hE
    | vint n => exact Except.noConfusion hE
    | vfloat f => exact Except.noConfusion hE
    | vnone => exact Except.noConfusion hE
  · intro block proof r hE
    cases block with
    | vblock b =>
      cases proof with
      | vstr p => exact ⟨rfl, rfl⟩
      | vint n => exact Except.noConfusion hE
      | vfloat f => exact Except.noConfusion hE
      | vblock b2 => exact Except.noConfusion hE
      | vnone => exact Except.noConfusion hE
    | vstr s => exact Except.noConfusion hE
    | vint n => exact Except.noConfusion hE
    | vfloat f => exact Except.noConfusion hE
    | vnone => exact Except.noConfusion hE

/-- Claim C10 witness: a None block with a string proof yields a TypeError
from both entry points on the concrete ledger bcW. -/
theorem add_block_type_checks_witness :
    (PyVal.vnone.isBlock = false ∨ (PyVal.vstr "p").isStr = false) ∧
    ((∃ msg, add_block_checked test_hash bcW .vnone (.vstr "p") = .error (.typeError msg)) ∧
      (∃ msg, is_valid_proof_checked test_hash bcW .vnone (.vstr "p") = .error (.typeError msg))) :=
  ⟨Or.inl (by decide),
    (add_block_type_checks test_hash bcW).1 .vnone (.vstr "p") (Or.inl (by decide))⟩

end PyBlockchain
